import Mathlib

/-!
Verification of the Real-Time Task State Synchronization Engine of the
MinerU web console, as a shallow embedding of the TypeScript sources:

* `src/webui/src/stores/taskStore.ts` — the Task State Store (Pinia store):
  `upsertTask`, `setTaskDetail`, `appendLog`, `setSocketTask`.
* `src/webui/src/services/websocket.ts` — the Connection Manager and Event
  Dispatcher (`TaskWebSocket`): `connect`, `close`, `on`, and the
  `onmessage` / `onclose` / `onopen` socket callbacks.
* `App.vue` (the application root) — the Reconciliation Orchestrator:
  `handleSocketEvent` and `connectSocket`.

Mutable class/store fields become explicit state records; the socket and
timer callbacks become step functions on those records; side effects that
leave the engine (pull fetches, user-facing errors) are returned as an
explicit effect list.
-/

namespace MinerU

/-- `TaskSummary` from `taskStore.ts`: the record shown in list views. -/
structure TaskSummary where
  task_id : String
  status : String
  backend : String
  parse_method : String
  created_at : String
  updated_at : String
  error : Option String
deriving Repr, DecidableEq

/-- `TaskDetail` from `taskStore.ts`.  In TypeScript it `extends TaskSummary`;
here the inherited summary fields are the `summary` component, and the added
fields are `params`, `documents` (kept opaque as strings) and `logs`. -/
structure TaskDetail where
  summary : TaskSummary
  params : List (String × String)
  documents : List String
  logs : List String
deriving Repr, DecidableEq

/-- The Pinia `TaskState`: `details` is the keyed record
`Record<string, TaskDetail>`, embedded as an association list in insertion
order (JavaScript string-keyed objects preserve insertion order). -/
structure TaskState where
  tasks : List TaskSummary
  currentTaskId : Option String
  details : List (String × TaskDetail)
  isLoading : Bool
  socketTaskId : Option String
deriving Repr, DecidableEq

/-- `Array.prototype.findIndex`, returning `none` instead of `-1`. -/
def findIndex (p : α → Bool) : List α → Option Nat
  | [] => none
  | a :: as => if p a then some 0 else (findIndex p as).map (· + 1)

/-- `upsertTask(summary)` from `taskStore.ts`:
`findIndex` on `task_id`, then `splice(index, 1, summary)` (replace in
place) if found, else `unshift(summary)` (insert at the front).  There is
no comparison of `updated_at` timestamps anywhere in this action. -/
def upsertTask (s : TaskState) (summary : TaskSummary) : TaskState :=
  match findIndex (fun t => t.task_id == summary.task_id) s.tasks with
  | some i => { s with tasks := s.tasks.set i summary }
  | none => { s with tasks := summary :: s.tasks }

/-- Lookup `details[taskId]` (JavaScript property read on the keyed record). -/
def lookupDetail (ds : List (String × TaskDetail)) (id : String) :
    Option TaskDetail :=
  (ds.find? (fun p => p.1 == id)).map (·.2)

/-- Property write `details[id] = d` on the keyed record: replace the value
at an existing key in place, else append the new key. -/
def setAssocDetail : List (String × TaskDetail) → String → TaskDetail →
    List (String × TaskDetail)
  | [], id, d => [(id, d)]
  | p :: ps, id, d =>
    if p.1 == id then (id, d) :: ps else p :: setAssocDetail ps id d

/-- `setTaskDetail(task)` from `taskStore.ts`:
`this.details[task.task_id] = task; this.upsertTask(task)` — the upsert is
fed the detail itself (its summary fields). -/
def setTaskDetail (s : TaskState) (task : TaskDetail) : TaskState :=
  upsertTask
    { s with details := setAssocDetail s.details task.summary.task_id task }
    task.summary

/-- `appendLog(taskId, line)` from `taskStore.ts`: push onto the logs of the
existing detail entry, or do nothing when no detail entry exists. -/
def appendLog (s : TaskState) (taskId line : String) : TaskState :=
  match lookupDetail s.details taskId with
  | some detail =>
    { s with
      details := setAssocDetail s.details taskId
        { detail with logs := detail.logs ++ [line] } }
  | none => s

/-- `setSocketTask(taskId)` from `taskStore.ts`. -/
def setSocketTask (s : TaskState) (taskId : Option String) : TaskState :=
  { s with socketTaskId := taskId }

/-- `setCurrentTask(id)` from `taskStore.ts`. -/
def setCurrentTask (s : TaskState) (id : Option String) : TaskState :=
  { s with currentTaskId := id }

/-! ## Events and the Reconciliation Orchestrator (`handleSocketEvent` in App.vue) -/

/-- The `TaskEvent` tagged union from `websocket.ts` (with `snapshot`'s
`unknown` payload given its intended `TaskDetail` shape). -/
inductive TaskEvent where
  | snapshot (task : TaskDetail)
  | status (task_id status timestamp : String)
  | log (task_id line : String)
  | err (task_id message timestamp : String)
deriving Repr, DecidableEq

/-- Asynchronous side effects issued by `handleSocketEvent`: a full task-list
refresh (`refreshTasks()`), an authoritative detail pull for one task
(`refreshTaskDetail(id)`), or surfacing an error (`uiStore.setError`).
They are recorded as outputs; their responses land in the Store later. -/
inductive Effect where
  | listRefresh
  | detailPull (taskId : String)
  | surfaceError (message : String)
deriving Repr, DecidableEq

/-- `handleSocketEvent(event)` from App.vue, as a pure step: the new store
plus the list of effects it fires, in program order.  For a `status` event
it looks up an existing summary with `tasks.find`, overwrites only `status`
and `updated_at` via `upsertTask` when found, or triggers `refreshTasks()`
when not; then, independently, if the event's task is the currently
selected one and the status is terminal, it triggers
`refreshTaskDetail(task_id)` — with no deduplication flag. -/
def handleSocketEvent (s : TaskState) (ev : TaskEvent) :
    TaskState × List Effect :=
  match ev with
  | .snapshot task => (setTaskDetail s task, [])
  | .status task_id st ts =>
    let upd :=
      match s.tasks.find? (fun t => t.task_id == task_id) with
      | some existing =>
        (upsertTask s { existing with status := st, updated_at := ts },
         ([] : List Effect))
      | none => (s, [Effect.listRefresh])
    let pulls :=
      if s.currentTaskId == some task_id && (st == "success" || st == "failed")
      then [Effect.detailPull task_id] else []
    (upd.1, upd.2 ++ pulls)
  | .log task_id line => (appendLog s task_id line, [])
  | .err _ message _ => (s, [Effect.surfaceError message])

/-- Number of detail pulls among a list of effects. -/
def detailPullCount (effs : List Effect) : Nat :=
  effs.countP (fun e => match e with | .detailPull _ => true | _ => false)

/-! ## Connection Manager state machine (`TaskWebSocket` in `websocket.ts`)

The mutable fields of the class become a record; each callback or method
becomes a step function.  A `setTimeout` that has been scheduled but has
not yet run is an entry in `pendingTimers` (its delay in ms); the class
stores no handle for it, and nothing in the class ever cancels one — the
record keeps the list so that this observable fact can be stated.  Sockets
are numbered by a fresh counter so "a new connection was opened" is
visible in the state. -/

structure WSState where
  socket : Option Nat
  handlers : List Nat
  reconnectAttempts : Nat
  maxReconnectAttempts : Nat
  currentTaskId : Option String
  pendingTimers : List Nat
  nextSocketId : Nat
deriving Repr, DecidableEq

/-- Freshly constructed `TaskWebSocket`. -/
def wsInit : WSState :=
  { socket := none, handlers := [], reconnectAttempts := 0,
    maxReconnectAttempts := 5, currentTaskId := none,
    pendingTimers := [], nextSocketId := 0 }

/-- `connect(taskId)`: record the task and open a new socket (URL building
and the installation of the three callbacks carry no state). -/
def wsConnect (s : WSState) (taskId : String) : WSState :=
  { s with currentTaskId := some taskId, socket := some s.nextSocketId,
           nextSocketId := s.nextSocketId + 1 }

/-- The `socket.onclose` callback: when the attempt counter is below the
ceiling and a task is still selected, schedule a reconnect after
`min(1000 * 2 ** attempts, 10000)` ms and increment the counter;
otherwise do nothing. -/
def wsOnClose (s : WSState) : WSState :=
  if s.reconnectAttempts < s.maxReconnectAttempts && s.currentTaskId.isSome
  then
    { s with
      pendingTimers :=
        s.pendingTimers ++ [min (1000 * 2 ^ s.reconnectAttempts) 10000],
      reconnectAttempts := s.reconnectAttempts + 1 }
  else s

/-- The `socket.onopen` callback: reset the attempt counter. -/
def wsOnOpen (s : WSState) : WSState :=
  { s with reconnectAttempts := 0 }

/-- A pending reconnect timer fires: the scheduled callback runs
`this.connect(this.currentTaskId!)`, reading `currentTaskId` at fire time. -/
def wsTimerFire (s : WSState) : WSState :=
  match s.pendingTimers with
  | [] => s
  | _ :: rest =>
    match s.currentTaskId with
    | some t => wsConnect { s with pendingTimers := rest } t
    | none => { s with pendingTimers := rest }

/-- `on(handler)`: add to the handler `Set` (kept in insertion order). -/
def wsOn (s : WSState) (h : Nat) : WSState :=
  { s with handlers := if h ∈ s.handlers then s.handlers else s.handlers ++ [h] }

/-- `close()`: raise the attempt counter to the ceiling, close and drop the
socket, clear the handlers.  No timer handle is touched: `pendingTimers`
is left exactly as it was. -/
def wsClose (s : WSState) : WSState :=
  { s with reconnectAttempts := s.maxReconnectAttempts,
           socket := none, handlers := [] }

/-! ## Event Dispatcher fan-out (`socket.onmessage` in `websocket.ts`)

`onmessage` runs `try { const data = JSON.parse(...); handlers.forEach(h
=> h(data)) } catch { console.warn(...) }`.  An observer is embedded as an
id plus whether its callback throws on this message; the function returns
the ids that are actually invoked with the message, in order.  A throw
propagates out of `forEach` into the surrounding `catch`, so iteration
stops with the throwing observer. -/

structure Observer where
  id : Nat
  throws : Bool
deriving Repr, DecidableEq

/-- Which observers receive the decoded message, in delivery order. -/
def deliverToObservers : List Observer → List Nat
  | [] => []
  | o :: os => if o.throws then [o.id] else o.id :: deliverToObservers os

/-! ## `connectSocket` (App.vue): the app-level connect path -/

/-- The application root's engine state: the Pinia store plus the single
`TaskWebSocket` instance. -/
structure AppConn where
  store : TaskState
  ws : WSState
deriving Repr, DecidableEq

/-- The id under which App.vue registers `handleSocketEvent` as the socket
observer. -/
def appHandlerId : Nat := 0

/-- `connectSocket(taskId)` from App.vue: if the store already records this
task as the socket task, return immediately; otherwise `socket.close()`,
re-register the handler, `socket.connect(taskId)` and record the task. -/
def connectSocket (a : AppConn) (taskId : String) : AppConn :=
  if a.store.socketTaskId == some taskId then a
  else
    { store := setSocketTask a.store (some taskId),
      ws := wsConnect (wsOn (wsClose a.ws) appHandlerId) taskId }

/-! ## Sequencing helpers and sample data used by concrete checks -/

/-- Fold `appendLog` over a burst of `log` lines for one task. -/
def appendLogs (s : TaskState) (taskId : String) (lines : List String) :
    TaskState :=
  lines.foldl (fun st l => appendLog st taskId l) s

/-- The store's initial state (`state()` in `taskStore.ts`). -/
def emptyState : TaskState :=
  { tasks := [], currentTaskId := none, details := [], isLoading := false,
    socketTaskId := none }

/-- A store holding the given summaries with the given selection. -/
def stateWith (ts : List TaskSummary) (cur : Option String) : TaskState :=
  { emptyState with tasks := ts, currentTaskId := cur }

/-- A sample stored summary for task `"t1"`. -/
def sumT1 : TaskSummary :=
  { task_id := "t1", status := "running", backend := "pipeline",
    parse_method := "auto", created_at := "2024-01-01T00:00:00",
    updated_at := "2024-01-02T00:00:00", error := none }

/-- An update for `"t1"` whose `updated_at` is strictly earlier than
`sumT1.updated_at` (ISO-8601 strings compare in character order). -/
def staleT1 : TaskSummary :=
  { sumT1 with status := "queued", updated_at := "2024-01-01T12:00:00" }

/-- A sample detail entry for task `"t1"`. -/
def detT1 : TaskDetail :=
  { summary := sumT1, params := [("lang", "auto")], documents := ["doc1"],
    logs := ["line0"] }

/-- A store where `"t1"` has both a summary and a detail entry. -/
def stateWithDetail : TaskState :=
  { emptyState with tasks := [sumT1], details := [("t1", detT1)] }

/-- An engine whose reconnect attempts are exhausted while the store still
records `"t1"` as the socket task. -/
def exhaustedApp : AppConn :=
  { store := { emptyState with currentTaskId := some "t1", socketTaskId := some "t1" },
    ws := { wsInit with currentTaskId := some "t1", reconnectAttempts := 5 } }

/-! ## Helper lemmas on `findIndex`, `find?`, `set` and the detail map -/

theorem findIndex_lt_length {p : α → Bool} :
    ∀ {l : List α} {i : Nat}, findIndex p l = some i → i < l.length := by
  intro l
  induction l with
  | nil => intro i h; simp [findIndex] at h
  | cons a as ih =>
    intro i h
    cases hpa : p a with
    | true =>
      simp [findIndex, hpa] at h
      simp only [List.length_cons]
      omega
    | false =>
      simp only [findIndex, hpa, Bool.false_eq_true, if_false,
        Option.map_eq_some'] at h
      obtain ⟨j, hj, rfl⟩ := h
      have := ih hj
      simp only [List.length_cons]
      omega

theorem find?_eq_findIndex {p : α → Bool} :
    ∀ {l : List α} {a : α}, l.find? p = some a →
      ∃ i, findIndex p l = some i ∧ l[i]? = some a := by
  intro l
  induction l with
  | nil => intro a h; simp at h
  | cons b bs ih =>
    intro a h
    cases hpb : p b with
    | true =>
      refine ⟨0, ?_, ?_⟩
      · simp [findIndex, hpb]
      · simp only [List.find?_cons, hpb] at h
        simp only [List.getElem?_cons_zero]
        exact h
    | false =>
      simp only [List.find?_cons, hpb] at h
      obtain ⟨i, hi, hget⟩ := ih h
      refine ⟨i + 1, ?_, ?_⟩
      · simp [findIndex, hpb, hi]
      · simpa using hget

theorem set_getElem?_self :
    ∀ {l : List α} {i : Nat} {a : α}, l[i]? = some a → l.set i a = l := by
  intro l
  induction l with
  | nil => intro i a h; simp at h
  | cons b bs ih =>
    intro i a h
    cases i with
    | zero => simp at h; simp [h]
    | succ j =>
      simp only [List.getElem?_cons_succ] at h
      simp [List.set_cons_succ, ih h]

theorem findIndex_set {p : α → Bool} :
    ∀ {l : List α} {i : Nat} {a : α}, findIndex p l = some i → p a = true →
      findIndex p (l.set i a) = some i := by
  intro l
  induction l with
  | nil => intro i a h _; simp [findIndex] at h
  | cons b bs ih =>
    intro i a h ha
    cases hpb : p b with
    | true =>
      simp [findIndex, hpb] at h
      subst h
      simp [findIndex, ha]
    | false =>
      simp only [findIndex, hpb, Bool.false_eq_true, if_false,
        Option.map_eq_some'] at h
      obtain ⟨j, hj, rfl⟩ := h
      simp [List.set_cons_succ, findIndex, hpb, ih hj ha]

theorem find?_set {p : α → Bool} :
    ∀ {l : List α} {i : Nat} {a : α}, findIndex p l = some i → p a = true →
      (l.set i a).find? p = some a := by
  intro l
  induction l with
  | nil => intro i a h _; simp [findIndex] at h
  | cons b bs ih =>
    intro i a h ha
    cases hpb : p b with
    | true =>
      simp [findIndex, hpb] at h
      subst h
      simp [List.find?_cons, ha]
    | false =>
      simp only [findIndex, hpb, Bool.false_eq_true, if_false,
        Option.map_eq_some'] at h
      obtain ⟨j, hj, rfl⟩ := h
      simp [List.set_cons_succ, List.find?_cons, hpb, ih hj ha]

theorem lookupDetail_setAssocDetail (id : String) (d : TaskDetail) :
    ∀ ds : List (String × TaskDetail),
      lookupDetail (setAssocDetail ds id d) id = some d := by
  intro ds
  induction ds with
  | nil => simp [setAssocDetail, lookupDetail]
  | cons q qs ih =>
    cases hq : (q.1 == id) with
    | true => simp [setAssocDetail, hq, lookupDetail]
    | false =>
      simp only [setAssocDetail, hq, Bool.false_eq_true, if_false]
      simpa [lookupDetail, hq] using ih

theorem upsertTask_details (s : TaskState) (summary : TaskSummary) :
    (upsertTask s summary).details = s.details := by
  unfold upsertTask
  split <;> rfl

theorem upsertTask_currentTaskId (s : TaskState) (summary : TaskSummary) :
    (upsertTask s summary).currentTaskId = s.currentTaskId := by
  unfold upsertTask
  split <;> rfl

theorem deliverToObservers_all_ok :
    ∀ os : List Observer, (∀ q ∈ os, q.throws = false) →
      deliverToObservers os = os.map (·.id) := by
  intro os
  induction os with
  | nil => intro _; rfl
  | cons o os ih =>
    intro h
    have ho := h o (by simp)
    simp [deliverToObservers, ho, ih fun q hq => h q (by simp [hq])]

/-! ## Claim C1 — stale updates and `upsertTask` -/

/-- C1: the claim says an update whose `updated_at` is earlier than the
stored one leaves the stored summary unchanged.  Counterexample: a store
holding `sumT1` (updated at `2024-01-02T00…`) receives `staleT1`, an update
for the same `task_id` with the strictly earlier timestamp
`2024-01-01T12…` (character order on ISO-8601 strings), and the stored
summary is replaced by the stale update: `upsertTask` compares no
timestamps. -/
theorem upsertTask_stale_update_applied_cex :
    staleT1.task_id = sumT1.task_id ∧
    staleT1.updated_at.data < sumT1.updated_at.data ∧
    (upsertTask (stateWith [sumT1] none) staleT1).tasks = [staleT1] ∧
    (upsertTask (stateWith [sumT1] none) staleT1).tasks ≠
      (stateWith [sumT1] none).tasks := by
  refine ⟨by decide, by decide, by decide, by decide⟩

/-- C1 (amended): `upsertTask` replaces the stored summary for a matching
`task_id` unconditionally — in particular an update whose `updated_at` is
strictly earlier than the stored one is applied, not rejected, so
`updated_at` is not non-decreasing across accepted updates. -/
theorem upsertTask_unconditional_replace (s : TaskState)
    (old upd : TaskSummary) (i : Nat)
    (hidx : findIndex (fun t => t.task_id == upd.task_id) s.tasks = some i)
    (hold : s.tasks[i]? = some old)
    (hstale : upd.updated_at.data < old.updated_at.data) :
    (upsertTask s upd).tasks[i]? = some upd := by
  have hlen := findIndex_lt_length hidx
  simp only [upsertTask, hidx]
  exact List.getElem?_set_self hlen

/-- Witness for C1's amended theorem at the concrete stale update. -/
theorem upsertTask_unconditional_replace_witness :
    findIndex (fun t => t.task_id == staleT1.task_id)
      (stateWith [sumT1] none).tasks = some 0 ∧
    (stateWith [sumT1] none).tasks[0]? = some sumT1 ∧
    staleT1.updated_at.data < sumT1.updated_at.data ∧
    (upsertTask (stateWith [sumT1] none) staleT1).tasks[0]? = some staleT1 :=
  ⟨by decide, by decide, by decide,
    upsertTask_unconditional_replace (stateWith [sumT1] none) sumT1 staleT1 0
      (by decide) (by decide) (by decide)⟩

/-! ## Claim C2 — duplicate terminal status events -/

/-- C2: the claim says processing the same terminal `status` event twice
triggers at most one detail pull.  Counterexample: with `"t1"` selected and
its summary stored, processing `status "t1" "success"` twice triggers a
`detailPull "t1"` each time — two pulls in total; there is no per-task
"already reconciled" flag.  (The Store state itself is idempotent.) -/
theorem duplicate_terminal_status_two_pulls_cex :
    (handleSocketEvent
      (handleSocketEvent (stateWith [sumT1] (some "t1"))
        (.status "t1" "success" "2024-01-03T00:00:00")).1
      (.status "t1" "success" "2024-01-03T00:00:00")).2 =
        [Effect.detailPull "t1"] ∧
    (handleSocketEvent (stateWith [sumT1] (some "t1"))
      (.status "t1" "success" "2024-01-03T00:00:00")).2 =
        [Effect.detailPull "t1"] ∧
    ¬ detailPullCount
        ((handleSocketEvent (stateWith [sumT1] (some "t1"))
          (.status "t1" "success" "2024-01-03T00:00:00")).2 ++
         (handleSocketEvent
           (handleSocketEvent (stateWith [sumT1] (some "t1"))
             (.status "t1" "success" "2024-01-03T00:00:00")).1
           (.status "t1" "success" "2024-01-03T00:00:00")).2) ≤ 1 := by
  refine ⟨by decide, by decide, by decide⟩

/-- C2 (amended): for the currently selected task with a stored summary,
processing the same terminal `status` event twice leaves the Store in the
same state as processing it once, but each processing triggers its own
authoritative detail pull (so the pair triggers two pulls, not at most
one): the orchestrator keeps no per-task reconciliation flag. -/
theorem terminal_status_store_idempotent (s : TaskState)
    (tid st ts : String) (existing : TaskSummary)
    (hfind : s.tasks.find? (fun t => t.task_id == tid) = some existing)
    (hcur : s.currentTaskId = some tid)
    (hterm : st = "success" ∨ st = "failed") :
    (handleSocketEvent (handleSocketEvent s (.status tid st ts)).1
        (.status tid st ts)).1 =
      (handleSocketEvent s (.status tid st ts)).1 ∧
    detailPullCount (handleSocketEvent s (.status tid st ts)).2 = 1 ∧
    detailPullCount
      (handleSocketEvent (handleSocketEvent s (.status tid st ts)).1
        (.status tid st ts)).2 = 1 := by
  have hp : (existing.task_id == tid) = true := by
    simpa using List.find?_some (p := fun t : TaskSummary => t.task_id == tid) hfind
  have hteq : existing.task_id = tid := eq_of_beq hp
  obtain ⟨i, hidx, hget⟩ := find?_eq_findIndex hfind
  have hterm' : (st == "success" || st == "failed") = true := by
    rcases hterm with h | h <;> simp [h]
  have hcur' : (s.currentTaskId == some tid) = true := by
    simp [hcur]
  set e2 : TaskSummary := { existing with status := st, updated_at := ts }
    with he2
  have hp2 : (fun t : TaskSummary => t.task_id == tid) e2 = true := by
    rw [he2]
    simpa using hp
  have he2tid : e2.task_id = tid := by
    rw [he2]
    simpa using hteq
  have h1 : handleSocketEvent s (.status tid st ts) =
      (upsertTask s e2, [Effect.detailPull tid]) := by
    simp [handleSocketEvent, hfind, hcur', hterm', he2]
  have hup : upsertTask s e2 = { s with tasks := s.tasks.set i e2 } := by
    have : findIndex (fun t => t.task_id == e2.task_id) s.tasks = some i := by
      have h := hidx
      simp only [← hteq] at h
      exact h
    simp [upsertTask, this]
  have hfind2 : ({ s with tasks := s.tasks.set i e2 } : TaskState).tasks.find?
      (fun t => t.task_id == tid) = some e2 :=
    find?_set hidx hp2
  have hidx2 : findIndex (fun t => t.task_id == tid)
      (s.tasks.set i e2) = some i :=
    findIndex_set hidx hp2
  have he2fix : ({ e2 with status := st, updated_at := ts } : TaskSummary)
      = e2 := by
    simp [he2]
  have h2 : handleSocketEvent { s with tasks := s.tasks.set i e2 }
      (.status tid st ts) =
      (upsertTask { s with tasks := s.tasks.set i e2 } e2,
        [Effect.detailPull tid]) := by
    simp [handleSocketEvent, hfind2, hcur', hterm', he2fix]
  have hup2 : upsertTask ({ s with tasks := s.tasks.set i e2 } : TaskState) e2
      = { s with tasks := s.tasks.set i e2 } := by
    have : findIndex (fun t => t.task_id == e2.task_id)
        (s.tasks.set i e2) = some i := by
      have h := hidx2
      simp only [← hteq] at h
      exact h
    simp [upsertTask, this, List.set_set]
  refine ⟨?_, ?_, ?_⟩
  · rw [h1]
    simp only [hup]
    rw [h2, hup2]
  · rw [h1]
    rfl
  · rw [h1]
    simp only [hup]
    rw [h2]
    rfl

/-! ## Claim C3 — `close()` and pending reconnect timers -/

/-- C3: the claim says `close()` cancels every pending reconnect timer so
that no reconnect attempt ever fires afterwards.  Counterexample: connect
to `"t1"`, suffer one abnormal close (a 1000 ms reconnect timer is now
pending), then call `close()` — the pending timer is still there (the class
stores no timer handle), and when it fires it opens a fresh socket: a
reconnect attempt fires after `close()`. -/
theorem close_pending_timer_survives_cex :
    (wsOnClose (wsConnect wsInit "t1")).pendingTimers = [1000] ∧
    (wsClose (wsOnClose (wsConnect wsInit "t1"))).pendingTimers = [1000] ∧
    (wsTimerFire (wsClose (wsOnClose (wsConnect wsInit "t1")))).socket =
      some 1 ∧
    (wsTimerFire (wsClose (wsOnClose (wsConnect wsInit "t1")))).socket ≠
      none := by
  refine ⟨by decide, by decide, by decide, by decide⟩

/-- C3 (amended): `close()` clears all observers (so messages from the old
connection are delivered to nobody), drops the socket, and raises the
attempt counter to the ceiling so that a subsequent socket close schedules
no new reconnect timer; but it does not cancel reconnect timers already
pending — those are left exactly as they were and will still fire. -/
theorem close_clears_observers_no_new_timers (s : WSState) :
    (wsClose s).handlers = [] ∧
    (wsClose s).socket = none ∧
    (wsClose s).reconnectAttempts = s.maxReconnectAttempts ∧
    (wsClose s).pendingTimers = s.pendingTimers ∧
    wsOnClose (wsClose s) = wsClose s := by
  refine ⟨rfl, rfl, rfl, rfl, ?_⟩
  simp [wsOnClose, wsClose]

/-! ## Claim C4 — observer exceptions during fan-out -/

/-- C4: the claim says one observer throwing never prevents delivery to the
observers after it.  Counterexample: with two registered observers where
the first throws, the message reaches only observer `0`; the `try` block
wraps the whole `forEach`, so the exception aborts the iteration and
observer `1` is skipped. -/
theorem observer_throw_stops_delivery_cex :
    deliverToObservers [⟨0, true⟩, ⟨1, false⟩] = [0] ∧
    deliverToObservers [⟨0, true⟩, ⟨1, false⟩] ≠ [0, 1] ∧
    1 ∉ deliverToObservers [⟨0, true⟩, ⟨1, false⟩] := by
  refine ⟨by decide, by decide, by decide⟩

/-- C4 (amended): fan-out visits observers in registration order and stops
at the first observer whose callback throws — observers before it and the
thrower itself receive the message, observers after it do not; when no
observer throws, every observer receives the message in order. -/
theorem delivery_stops_at_first_throwing_observer
    (pre post : List Observer) (o : Observer)
    (hpre : ∀ q ∈ pre, q.throws = false) (ho : o.throws = true) :
    deliverToObservers (pre ++ o :: post) = pre.map (·.id) ++ [o.id] ∧
    (∀ os : List Observer, (∀ q ∈ os, q.throws = false) →
      deliverToObservers os = os.map (·.id)) := by
  refine ⟨?_, deliverToObservers_all_ok⟩
  induction pre with
  | nil => simp [deliverToObservers, ho]
  | cons q qs ih =>
    have hq := hpre q (by simp)
    simp only [List.cons_append, deliverToObservers, hq, Bool.false_eq_true,
      if_false, List.map_cons, List.cons_append, List.append_eq]
    rw [ih fun r hr => hpre r (by simp [hr])]

/-- Witness for C4's amended theorem: observer `1` throws between the
healthy observers `0` and `2`; delivery reaches `0` and `1` only. -/
theorem delivery_stops_at_first_throwing_observer_witness :
    (∀ q ∈ ([⟨0, false⟩] : List Observer), q.throws = false) ∧
    (⟨1, true⟩ : Observer).throws = true ∧
    deliverToObservers [⟨0, false⟩, ⟨1, true⟩, ⟨2, false⟩] = [0, 1] :=
  ⟨by decide, by decide, by
    have h := delivery_stops_at_first_throwing_observer
      [⟨0, false⟩] [⟨2, false⟩] ⟨1, true⟩ (by decide) (by decide)
    simpa using h.1⟩

/-! ## Claim C5 — reconnect backoff sequence -/

/-- C5: on each abnormal close with a task still selected and the counter
below the ceiling of 5, the k-th reconnect is scheduled after
`min(1000 * 2 ** k, 10000)` ms and the counter is incremented; at the
ceiling no further attempt is scheduled; a successful open resets the
counter; and five consecutive abnormal closes from a fresh connection
schedule exactly the delays 1000, 2000, 4000, 8000, 10000 ms with no
sixth. -/
theorem reconnect_backoff_sequence (s : WSState) (t : String)
    (hmax : s.maxReconnectAttempts = 5) (hcur : s.currentTaskId = some t) :
    (s.reconnectAttempts < 5 →
      (wsOnClose s).pendingTimers =
        s.pendingTimers ++ [min (1000 * 2 ^ s.reconnectAttempts) 10000] ∧
      (wsOnClose s).reconnectAttempts = s.reconnectAttempts + 1) ∧
    (5 ≤ s.reconnectAttempts → wsOnClose s = s) ∧
    (wsOnOpen s).reconnectAttempts = 0 ∧
    (wsOnClose^[5] (wsConnect wsInit t)).pendingTimers =
      [1000, 2000, 4000, 8000, 10000] ∧
    wsOnClose (wsOnClose^[5] (wsConnect wsInit t)) =
      wsOnClose^[5] (wsConnect wsInit t) := by
  refine ⟨?_, ?_, rfl, ?_, ?_⟩
  · intro hlt
    constructor <;> simp [wsOnClose, hmax, hcur, hlt]
  · intro hge
    have : ¬ s.reconnectAttempts < s.maxReconnectAttempts := by omega
    simp [wsOnClose, this]
  · simp [wsOnClose, wsConnect, wsInit, Function.iterate_succ,
      Function.iterate_zero]
  · simp [wsOnClose, wsConnect, wsInit, Function.iterate_succ,
      Function.iterate_zero]

/-- Witness for C5 on a freshly connected engine. -/
theorem reconnect_backoff_sequence_witness :
    (wsConnect wsInit "t1").maxReconnectAttempts = 5 ∧
    (wsConnect wsInit "t1").currentTaskId = some "t1" ∧
    (wsOnClose (wsConnect wsInit "t1")).pendingTimers = [1000] ∧
    (wsOnClose (wsConnect wsInit "t1")).reconnectAttempts = 1 :=
  ⟨rfl, rfl, by
    have h := (reconnect_backoff_sequence (wsConnect wsInit "t1") "t1"
      rfl rfl).1 (by decide)
    simpa using h.1, by
    have h := (reconnect_backoff_sequence (wsConnect wsInit "t1") "t1"
      rfl rfl).1 (by decide)
    simpa using h.2⟩

/-! ## Claim C6 — re-selecting after reconnect exhaustion -/

/-- C6: the claim says re-selecting the same task after exhaustion resets
the attempt counter and re-establishes a live connection.  Counterexample:
in the exhausted engine the store still records `"t1"` as the socket task,
so `connectSocket("t1")` returns at its guard: the state is completely
unchanged — the counter stays at 5 and no socket is opened. -/
theorem reselect_same_task_noop_cex :
    connectSocket exhaustedApp "t1" = exhaustedApp ∧
    (connectSocket exhaustedApp "t1").ws.reconnectAttempts = 5 ∧
    (connectSocket exhaustedApp "t1").ws.socket = none := by
  refine ⟨by decide, by decide, by decide⟩

/-- C6 (amended): `connectSocket` for the task currently recorded as the
socket task is a complete no-op (so after exhaustion, re-selecting the same
task neither resets the counter nor reconnects); for a different task it
closes the old connection, re-registers the handler and opens a fresh
socket for that task; the attempt counter is reset only by a successful
socket open. -/
theorem connectSocket_same_task_noop (a : AppConn) (t : String)
    (hsame : a.store.socketTaskId = some t) :
    connectSocket a t = a ∧
    (∀ b : AppConn, b.store.socketTaskId ≠ some t →
      (connectSocket b t).ws.socket = some (wsClose b.ws).nextSocketId ∧
      (connectSocket b t).ws.currentTaskId = some t ∧
      (connectSocket b t).store.socketTaskId = some t) ∧
    (∀ w : WSState, (wsOnOpen w).reconnectAttempts = 0) := by
  refine ⟨?_, ?_, fun w => rfl⟩
  · simp [connectSocket, hsame]
  · intro b hb
    have hb' : (b.store.socketTaskId == some t) = false := by
      simpa using hb
    refine ⟨?_, ?_, ?_⟩ <;>
      simp [connectSocket, hb', wsConnect, wsOn, wsClose, setSocketTask]

/-- Witness for C6's amended theorem at the exhausted engine. -/
theorem connectSocket_same_task_noop_witness :
    exhaustedApp.store.socketTaskId = some "t1" ∧
    connectSocket exhaustedApp "t1" = exhaustedApp :=
  ⟨by decide,
    (connectSocket_same_task_noop exhaustedApp "t1" (by decide)).1⟩

/-- Witness for C2's amended theorem at the concrete duplicate event. -/
theorem terminal_status_store_idempotent_witness :
    (stateWith [sumT1] (some "t1")).tasks.find?
      (fun t => t.task_id == "t1") = some sumT1 ∧
    (stateWith [sumT1] (some "t1")).currentTaskId = some "t1" ∧
    detailPullCount (handleSocketEvent (stateWith [sumT1] (some "t1"))
      (.status "t1" "success" "T2")).2 = 1 :=
  ⟨by decide, by decide,
    (terminal_status_store_idempotent (stateWith [sumT1] (some "t1"))
      "t1" "success" "T2" sumT1 (by decide) (by decide) (Or.inl rfl)).2.1⟩

/-! ## Claim C7 — `setTaskDetail` keeps list and detail in sync -/

theorem upsertTask_find_self (s : TaskState) (summary : TaskSummary) :
    (upsertTask s summary).tasks.find?
      (fun t => t.task_id == summary.task_id) = some summary := by
  rcases hidx : findIndex (fun t => t.task_id == summary.task_id) s.tasks
    with _ | i
  · simp [upsertTask, hidx, List.find?_cons]
  · simp only [upsertTask, hidx]
    exact find?_set hidx (by simp)

/-- C7: `setTaskDetail` fully replaces the detail entry keyed by the
detail's `task_id` and upserts the detail's own summary fields into the
task list, so afterwards the list entry and the detail entry for that
`task_id` agree. -/
theorem setTaskDetail_syncs_summary (s : TaskState) (d : TaskDetail) :
    lookupDetail (setTaskDetail s d).details d.summary.task_id = some d ∧
    (setTaskDetail s d).tasks.find?
      (fun t => t.task_id == d.summary.task_id) = some d.summary := by
  constructor
  · have hdet : (setTaskDetail s d).details =
        setAssocDetail s.details d.summary.task_id d := by
      simp [setTaskDetail, upsertTask_details]
    rw [hdet]
    exact lookupDetail_setAssocDetail _ _ _
  · exact upsertTask_find_self
      { s with details := setAssocDetail s.details d.summary.task_id d }
      d.summary

/-! ## Claim C8 — log lines append in order; no detail entry, no-op -/

/-- C8: for a task with an existing detail entry, a burst of `log` events
appends exactly the new lines at the tail of `logs`, in arrival order, with
nothing lost, reordered or duplicated; when no detail entry exists,
`appendLog` leaves the Store entirely unchanged (and raises no error). -/
theorem appendLog_appends_in_order (s : TaskState) (taskId : String)
    (lines : List String) (d : TaskDetail)
    (hd : lookupDetail s.details taskId = some d) :
    lookupDetail (appendLogs s taskId lines).details taskId =
      some { d with logs := d.logs ++ lines } ∧
    (∀ s2 : TaskState, ∀ line,
      lookupDetail s2.details taskId = none → appendLog s2 taskId line = s2) := by
  constructor
  · induction lines generalizing s d with
    | nil => simpa [appendLogs] using hd
    | cons l ls ih =>
      have hstep : appendLog s taskId l =
          { s with details :=
              setAssocDetail s.details taskId ({ d with logs := d.logs ++ [l] }) } := by
        simp [appendLog, hd]
      have hlook : lookupDetail (appendLog s taskId l).details taskId =
          some { d with logs := d.logs ++ [l] } := by
        rw [hstep]
        exact lookupDetail_setAssocDetail _ _ _
      have : appendLogs s taskId (l :: ls) =
          appendLogs (appendLog s taskId l) taskId ls := by
        simp [appendLogs, List.foldl_cons]
      rw [this]
      have := ih (appendLog s taskId l) { d with logs := d.logs ++ [l] } hlook
      simpa [List.append_assoc] using this
  · intro s2 line hnone
    simp [appendLog, hnone]

/-- Witness for C8 at a concrete two-line burst. -/
theorem appendLog_appends_in_order_witness :
    lookupDetail stateWithDetail.details "t1" = some detT1 ∧
    lookupDetail (appendLogs stateWithDetail "t1" ["a", "b"]).details "t1" =
      some { detT1 with logs := ["line0", "a", "b"] } :=
  ⟨by decide, by
    have h := (appendLog_appends_in_order stateWithDetail "t1" ["a", "b"]
      detT1 (by decide)).1
    simpa [detT1] using h⟩

/-! ## Claim C9 — unknown task id triggers a full list refresh -/

/-- C9: a `status` event whose `task_id` has no stored summary triggers a
full list-refresh pull and changes no store state; a `status` event for a
known `task_id` triggers no list refresh and instead updates the stored
summary via `upsertTask`. -/
theorem status_unknown_task_triggers_list_refresh (s : TaskState)
    (tid st ts : String) :
    (s.tasks.find? (fun t => t.task_id == tid) = none →
      Effect.listRefresh ∈ (handleSocketEvent s (.status tid st ts)).2 ∧
      (handleSocketEvent s (.status tid st ts)).1 = s) ∧
    (∀ existing, s.tasks.find? (fun t => t.task_id == tid) = some existing →
      Effect.listRefresh ∉ (handleSocketEvent s (.status tid st ts)).2 ∧
      (handleSocketEvent s (.status tid st ts)).1 =
        upsertTask s { existing with status := st, updated_at := ts }) := by
  constructor
  · intro hnone
    constructor
    · simp [handleSocketEvent, hnone]
    · simp [handleSocketEvent, hnone]
  · intro existing hsome
    constructor
    · cases hc : (s.currentTaskId == some tid &&
        (st == "success" || st == "failed")) with
      | true => simp [handleSocketEvent, hsome, hc]
      | false => simp [handleSocketEvent, hsome, hc]
    · simp [handleSocketEvent, hsome]

/-- Witness for C9: an empty store receiving `status` for unknown `"t1"`
triggers a list refresh. -/
theorem status_unknown_task_triggers_list_refresh_witness :
    (emptyState.tasks.find? (fun t => t.task_id == "t1") = none) ∧
    Effect.listRefresh ∈
      (handleSocketEvent emptyState (.status "t1" "running" "T1")).2 :=
  ⟨by decide,
    ((status_unknown_task_triggers_list_refresh emptyState
      "t1" "running" "T1").1 (by decide)).1⟩

/-! ## Claim C10 — frame of a status event on a known task -/

/-- C10: processing a `status` event for a task with a stored summary
changes only that summary's `status` and `updated_at`: its `task_id`,
`backend`, `parse_method`, `created_at` and `error` are preserved, every
other position of the task list is untouched, and the details map,
selection, loading flag and socket task are unchanged. -/
theorem status_event_frame (s : TaskState) (tid st ts : String)
    (existing : TaskSummary)
    (hfind : s.tasks.find? (fun t => t.task_id == tid) = some existing) :
    ∃ i, findIndex (fun t => t.task_id == tid) s.tasks = some i ∧
      (handleSocketEvent s (.status tid st ts)).1.tasks =
        s.tasks.set i { existing with status := st, updated_at := ts } ∧
      (∀ j, j ≠ i →
        (handleSocketEvent s (.status tid st ts)).1.tasks[j]? =
          s.tasks[j]?) ∧
      (handleSocketEvent s (.status tid st ts)).1.details = s.details ∧
      (handleSocketEvent s (.status tid st ts)).1.currentTaskId =
        s.currentTaskId ∧
      (handleSocketEvent s (.status tid st ts)).1.socketTaskId =
        s.socketTaskId ∧
      (handleSocketEvent s (.status tid st ts)).1.isLoading = s.isLoading ∧
      ({ existing with status := st, updated_at := ts }).task_id =
        existing.task_id ∧
      ({ existing with status := st, updated_at := ts }).backend =
        existing.backend ∧
      ({ existing with status := st, updated_at := ts }).parse_method =
        existing.parse_method ∧
      ({ existing with status := st, updated_at := ts }).created_at =
        existing.created_at ∧
      ({ existing with status := st, updated_at := ts }).error =
        existing.error := by
  have hp : (existing.task_id == tid) = true := by
    simpa using
      List.find?_some (p := fun t : TaskSummary => t.task_id == tid) hfind
  have hteq : existing.task_id = tid := eq_of_beq hp
  obtain ⟨i, hidx, hget⟩ := find?_eq_findIndex hfind
  have h1 : (handleSocketEvent s (.status tid st ts)).1 =
      upsertTask s { existing with status := st, updated_at := ts } := by
    simp [handleSocketEvent, hfind]
  have hidx2 : findIndex
      (fun t => t.task_id ==
        ({ existing with status := st, updated_at := ts }).task_id)
      s.tasks = some i := by
    have h := hidx
    simp only [← hteq] at h
    exact h
  have hup : upsertTask s { existing with status := st, updated_at := ts } =
      { s with tasks :=
          s.tasks.set i { existing with status := st, updated_at := ts } } := by
    simp [upsertTask, hidx2]
  refine ⟨i, hidx, ?_, ?_, ?_, ?_, ?_, ?_, rfl, rfl, rfl, rfl, rfl⟩
  · rw [h1, hup]
  · intro j hj
    rw [h1, hup]
    exact List.getElem?_set_ne (Ne.symm hj)
  · rw [h1, hup]
  · rw [h1, hup]
  · rw [h1, hup]
  · rw [h1, hup]

/-- Witness for C10 at a concrete known-task status event. -/
theorem status_event_frame_witness :
    (stateWith [sumT1] none).tasks.find?
      (fun t => t.task_id == "t1") = some sumT1 ∧
    ∃ i, findIndex (fun t => t.task_id == "t1")
        (stateWith [sumT1] none).tasks = some i ∧
      (handleSocketEvent (stateWith [sumT1] none)
        (.status "t1" "failed" "T9")).1.details =
        (stateWith [sumT1] none).details :=
  ⟨by decide, by
    obtain ⟨i, hi, _, _, hdet, _⟩ := status_event_frame
      (stateWith [sumT1] none) "t1" "failed" "T9" sumT1 (by decide)
    exact ⟨i, hi, hdet⟩⟩

end MinerU
